import Mathlib

/-!
Shallow embedding of the ladder-diagram display library of this repository
(`src/static/js/ladsubrdisplib.js`, its earlier variant `src/unnamed/part_000`,
and the symbol library `LadSymbols` in `src/unnamed/part_001`).

The renderer turns a JSON program description (rungs of cells with row/column
coordinates) into HTML+SVG markup, and a separate pass updates the rendered
on/off state tags from an address-to-value snapshot.  Machine text is modelled
as Lean `String`, JS numbers as `Rat` (exact rationals; the sources only test
integrality, zero-ness and two-decimal formatting), and JS objects carrying
optional fields as structures of `Option` fields, with the source expressions
`x || d` translated by explicit defaulting functions that also honour JS
falsiness of `0` and of the empty string.
-/

/-- JS runtime values that can appear in the address-to-value snapshot
(`dataValues`) consumed by `updateCellStates`. -/
inductive JSVal where
  | bool (b : Bool)
  | num (q : ℚ)
  | str (s : String)
  | null
  | undef
deriving DecidableEq

/-- The decimal digits, used to print JS numbers. -/
def decDigits : List Char := ("0123456789").data

/-- Digit character for `d < 10`. -/
def jsDigitChar (d : Nat) : Char := decDigits.getD d '0'

/-- Fuel-driven decimal printer core (`fuel` bounds the digit count; `n + 1`
is always enough fuel for `n`). -/
def natCharsGo : Nat → Nat → List Char
  | 0, _ => []
  | fuel + 1, n =>
      if n < 10 then [jsDigitChar n]
      else natCharsGo fuel (n / 10) ++ [jsDigitChar (n % 10)]

/-- Decimal rendering of a natural number, as JS prints nonnegative integer
`Number`s in template literals. -/
def natStr (n : Nat) : String := ⟨natCharsGo (n + 1) n⟩

/-- Decimal rendering of an integer (JS `Number.prototype.toString` for
integral values). -/
def intStr (i : Int) : String :=
  if i < 0 then ("-") ++ natStr i.natAbs else natStr i.natAbs

/-- `toFixed(2)` for a nonnegative rational: round half up at two decimals
(ECMA `Number.prototype.toFixed`, idealised over exact rationals). -/
def toFixed2Pos (q : ℚ) : String :=
  let n : Int := Rat.floor (q * 100 + 1 / 2)
  let ip := n / 100
  let fp := (n % 100).natAbs
  intStr ip ++ (".") ++ (if fp < 10 then ("0") else ("")) ++ natStr fp

/-- `toFixed(2)` (negative numbers format their absolute value behind `-`). -/
def toFixed2 (q : ℚ) : String :=
  if q < 0 then ("-") ++ toFixed2Pos (-q) else toFixed2Pos q

/-- `formatValue` (ladsubrdisplib.js lines 351-359): numbers print as an
integer when exact (`Number.isInteger`) and with `toFixed(2)` otherwise; any
other value is stringified (`String(value)`). -/
def formatValue (v : JSVal) : String :=
  match v with
  | .num q => if q.den = 1 then intStr q.num else toFixed2 q
  | .str s => s
  | .bool b => if b then ("true") else ("false")
  | .null => ("null")
  | .undef => ("undefined")

/-- One escaped character of browser text-node serialisation: setting
`div.textContent` and reading `div.innerHTML` escapes `&`, `<`, `>` and
no-break space, and leaves every other character (quotes included) as is. -/
def escChar (c : Char) : List Char :=
  if c = '&' then ("&amp;").data
  else if c = '<' then ("&lt;").data
  else if c = '>' then ("&gt;").data
  else if c = Char.ofNat 160 then ("&nbsp;").data
  else [c]

/-- `escapeHtml` (ladsubrdisplib.js lines 366-371): falsy input (the empty
string) yields the empty string, otherwise the browser text-node
serialisation of the input. -/
def escapeHtml (s : String) : String :=
  if s = "" then ("") else ⟨(s.data.map escChar).flatten⟩

/-- Number of `<` characters in a string; an HTML element can only be
introduced by a `<`, so this counts element-introduction opportunities. -/
def countLt (s : String) : Nat := s.data.count '<'

theorem string_data_append (a b : String) : (a ++ b).data = a.data ++ b.data := rfl

theorem countLt_append (a b : String) : countLt (a ++ b) = countLt a + countLt b := by
  simp [countLt, string_data_append, List.count_append]

theorem escChar_no_lt (c : Char) : ('<') ∉ escChar c := by
  unfold escChar
  split_ifs with h1 h2 h3 h4
  · decide
  · decide
  · decide
  · decide
  · intro hm
    simp only [List.mem_singleton] at hm
    exact h2 hm.symm

theorem countLt_escapeHtml (s : String) : countLt (escapeHtml s) = 0 := by
  unfold escapeHtml
  split_ifs with h
  · decide
  · show List.count '<' ((s.data.map escChar).flatten) = 0
    induction s.data with
    | nil => decide
    | cons c l ih =>
        simp only [List.map_cons, List.flatten_cons, List.count_append, ih]
        have : List.count '<' (escChar c) = 0 :=
          List.count_eq_zero.mpr (escChar_no_lt c)
        omega

theorem jsDigitChar_mem (d : Nat) : jsDigitChar d ∈ decDigits := by
  unfold jsDigitChar
  by_cases h : d < decDigits.length
  · rw [List.getD_eq_getElem?_getD, List.getElem?_eq_getElem h]
    exact Option.getD_some ▸ List.getElem_mem h
  · rw [List.getD_eq_default _ _ (le_of_not_lt h)]
    decide

theorem natCharsGo_digits (fuel n : Nat) : ∀ c ∈ natCharsGo fuel n, c ∈ decDigits := by
  induction fuel generalizing n with
  | zero => intro c hc; simp [natCharsGo] at hc
  | succ f ih =>
      intro c hc
      unfold natCharsGo at hc
      split_ifs at hc with h
      · simp only [List.mem_singleton] at hc
        subst hc
        exact jsDigitChar_mem n
      · rcases List.mem_append.mp hc with h1 | h1
        · exact ih (n / 10) c h1
        · simp only [List.mem_singleton] at h1
          subst h1
          exact jsDigitChar_mem (n % 10)

theorem countLt_natStr (n : Nat) : countLt (natStr n) = 0 := by
  unfold countLt natStr
  refine List.count_eq_zero.mpr ?_
  intro h
  have := natCharsGo_digits (n + 1) n '<' h
  revert this
  decide

/-! ## Data model (spec section 3, read off the JSON fields the sources touch)

Optional JSON fields are `Option`s; the JS default expressions `x || d` are
translated by the `eff*` functions below.  Note JS falsiness: `0` and the
empty string are falsy, while an array (even empty) is truthy. -/

/-- One instruction slot of a rung. -/
structure Cell where
  row : Option Nat := none
  col : Option Nat := none
  symbol : Option String := none
  type : Option String := none
  addr : Option String := none
  addrs : Option (List String) := none
  opcode : Option String := none
  params : Option (List String) := none
deriving DecidableEq

/-- One network of the ladder program. -/
structure Rung where
  rungnum : Nat := 0
  cells : List Cell := []
  comment : Option String := none
  rows : Option Nat := none
  cols : Option Nat := none
deriving DecidableEq

/-- The program description supplied by the caller. -/
structure ProgramData where
  addresses : Option (List String) := none
  subrdata : Option (List Rung) := none
  error : Option String := none
deriving DecidableEq

/-- `cell.row || 0` (and `cell.col || 0`): absent means `0`; `0 || 0` is `0`. -/
def effNat0 (x : Option Nat) : Nat := x.getD 0

/-- `rung.rows || 1` (and `cols || 1`): absent or `0` (falsy) means `1`. -/
def effNat1 (x : Option Nat) : Nat :=
  match x with
  | some (n + 1) => n + 1
  | _ => 1

/-- `s || ""`: absent means the empty string (and `"" || ""` is `""`). -/
def effStrEmpty (x : Option String) : String := x.getD ("")

/-- `s || d` for a non-empty default `d`: absent or empty (falsy) means `d`. -/
def effStrDefault (d : String) (x : Option String) : String :=
  match x with
  | some s => if s = "" then d else s
  | none => d

/-- `xs || []`. -/
def effList (x : Option (List String)) : List String := x.getD []

def effRow (c : Cell) : Nat := effNat0 c.row
def effCol (c : Cell) : Nat := effNat0 c.col
def effSymbol (c : Cell) : String := effStrDefault ("il") c.symbol
def effType (c : Cell) : String := effStrDefault ("unknown") c.type
def effAddr (c : Cell) : String := effStrEmpty c.addr
def effAddrs (c : Cell) : List String := effList c.addrs
def effOpcode (c : Cell) : String := effStrEmpty c.opcode
def effParams (c : Cell) : List String := effList c.params

/-! ## LadSymbols (src/unnamed/part_001 lines 314-515)

The symbol table maps a symbol name to an SVG template parameterised by the
state class; the 21 block-instruction names are aliases of the `compare`
template, and every unknown name falls back to `il`
(`symbols[symbolName] || symbols.il`). -/

/-- The distinct SVG templates in the `symbols` table. -/
inductive TemplateId where
  | noc | ncc | nocpd | nocnd | out | set | rst | pd | compare | hline | empty | il
deriving DecidableEq

/-- The alias names assigned `symbols.<name> = symbols.compare`
(part_001 lines 462-487). -/
def blockAliasNames : List String :=
  [("tmr"), ("tmra"), ("tmroff"), ("cntu"), ("cntd"), ("udc"),
   ("copy"), ("cpyblk"), ("fill"), ("pack"), ("unpack"), ("shfrg"),
   ("findeq"), ("mathdec"), ("mathhex"), ("sum"),
   ("call"), ("rt"), ("end"), ("for"), ("next")]

/-- The `symbols[symbolName] || symbols.il` lookup. -/
def resolveSymbol (name : String) : TemplateId :=
  if name = "noc" then .noc
  else if name = "ncc" then .ncc
  else if name = "nocpd" then .nocpd
  else if name = "nocnd" then .nocnd
  else if name = "out" then .out
  else if name = "set" then .set
  else if name = "rst" then .rst
  else if name = "pd" then .pd
  else if name = "compare" then .compare
  else if name = "hline" then .hline
  else if name = "empty" then .empty
  else if name = "il" then .il
  else if blockAliasNames.contains name then .compare
  else .il

/-- `wrapSvg` (part_001 lines 328-332): the `svg` wrapper element with the
state class; `WIDTH = 60`, `HEIGHT = 40` interpolate into the viewBox. -/
def wrapSvg (content stateClass : String) : String :=
  ("<svg viewBox=\"0 0 60 40\" class=\"ladder-symbol ") ++ stateClass ++ ("\">\n") ++
    content ++ ("\n</svg>")

/-- A stroke primitive of a template, with the state class on each; `CENTER_Y`
interpolates as `20` and `WIDTH` as `60`. -/
def lineEl (x1 y1 x2 y2 : Nat) (st : String) : String :=
  ("<line x1=\"") ++ natStr x1 ++ ("\" y1=\"") ++ natStr y1 ++ ("\" x2=\"") ++
    natStr x2 ++ ("\" y2=\"") ++ natStr y2 ++ ("\" class=\"") ++ st ++ ("\"/>\n")

def circleEl (cx cy r : Nat) (st : String) : String :=
  ("<circle cx=\"") ++ natStr cx ++ ("\" cy=\"") ++ natStr cy ++ ("\" r=\"") ++
    natStr r ++ ("\" class=\"") ++ st ++ ("\"/>\n")

def textEl (x y : Nat) (extra label st : String) : String :=
  ("<text x=\"") ++ natStr x ++ ("\" y=\"") ++ natStr y ++
    ("\" text-anchor=\"middle\" ") ++ extra ++ ("class=\"") ++ st ++ ("\">") ++
    label ++ ("</text>\n")

def rectEl (x y w h : Nat) (extra st : String) : String :=
  ("<rect x=\"") ++ natStr x ++ ("\" y=\"") ++ natStr y ++ ("\" width=\"") ++
    natStr w ++ ("\" height=\"") ++ natStr h ++ ("\" class=\"") ++ st ++
    ("\" fill=\"none\"") ++ extra ++ ("/>\n")

/-- The SVG fragment of each template (part_001 lines 335-460), as a function
of the state class applied uniformly to every stroke. -/
def templateSvg (t : TemplateId) (st : String) : String :=
  match t with
  | .noc => wrapSvg (lineEl 0 20 15 20 st ++ lineEl 15 8 15 32 st ++
      lineEl 45 8 45 32 st ++ lineEl 45 20 60 20 st) st
  | .ncc => wrapSvg (lineEl 0 20 15 20 st ++ lineEl 15 8 15 32 st ++
      lineEl 45 8 45 32 st ++ lineEl 18 30 42 10 st ++ lineEl 45 20 60 20 st) st
  | .nocpd => wrapSvg (lineEl 0 20 15 20 st ++ lineEl 15 8 15 32 st ++
      lineEl 45 8 45 32 st ++
      textEl 30 24 ("font-size=\"12\" font-weight=\"bold\" ") ("P") st ++
      lineEl 45 20 60 20 st) st
  | .nocnd => wrapSvg (lineEl 0 20 15 20 st ++ lineEl 15 8 15 32 st ++
      lineEl 45 8 45 32 st ++
      textEl 30 24 ("font-size=\"12\" font-weight=\"bold\" ") ("N") st ++
      lineEl 45 20 60 20 st) st
  | .out => wrapSvg (lineEl 0 20 15 20 st ++ circleEl 30 20 12 st ++
      lineEl 45 20 60 20 st) st
  | .set => wrapSvg (lineEl 0 20 15 20 st ++ circleEl 30 20 12 st ++
      textEl 30 24 ("font-size=\"10\" font-weight=\"bold\" ") ("S") st ++
      lineEl 45 20 60 20 st) st
  | .rst => wrapSvg (lineEl 0 20 15 20 st ++ circleEl 30 20 12 st ++
      textEl 30 24 ("font-size=\"10\" font-weight=\"bold\" ") ("R") st ++
      lineEl 45 20 60 20 st) st
  | .pd => wrapSvg (lineEl 0 20 15 20 st ++ circleEl 30 20 12 st ++
      textEl 30 24 ("font-size=\"10\" font-weight=\"bold\" ") ("P") st ++
      lineEl 45 20 60 20 st) st
  | .compare => wrapSvg (lineEl 0 20 10 20 st ++ rectEl 10 5 40 30 ("") st ++
      textEl 30 24 ("font-size=\"8\" ") ("CMP") st ++ lineEl 50 20 60 20 st) st
  | .hline => wrapSvg (lineEl 0 20 60 20 st) st
  | .empty => wrapSvg (lineEl 0 20 60 20 st) st
  | .il => wrapSvg (lineEl 0 20 5 20 st ++
      rectEl 5 5 50 30 (" stroke-dasharray=\"3,2\"") st ++
      textEl 30 24 ("font-size=\"8\" ") ("IL") st ++ lineEl 55 20 60 20 st) st

/-- `LadSymbols.getSymbol` (part_001 lines 495-498). -/
def getSymbol (symbolName stateClass : String) : String :=
  templateSvg (resolveSymbol symbolName) stateClass

/-- Number of primitive stroke elements (`line`, `circle`, `rect`, `text`)
inside each template, the elements `updateCellStates` retags. -/
def primCount : TemplateId → Nat
  | .noc => 4
  | .ncc => 5
  | .nocpd => 5
  | .nocnd => 5
  | .out => 3
  | .set => 4
  | .rst => 4
  | .pd => 4
  | .compare => 4
  | .hline => 1
  | .empty => 1
  | .il => 4

/-! ## isBlockSymbol

`src/static/js/ladsubrdisplib.js` lines 43-45 delegate to
`LadSymbols.isBlockSymbol(symbol)`.  The public API of `LadSymbols`
(part_001 lines 509-514) returns only `getSymbol`, `getSymbolNames`, `WIDTH`
and `HEIGHT`: there is no `isBlockSymbol` member, so the member access yields
`undefined` and the call throws a `TypeError`. -/

/-- The `isBlockSymbol` member of the `LadSymbols` object: absent from its
public API (part_001 lines 509-514), hence `none`. -/
def ladSymbolsMemberIsBlockSymbol : Option (String → Bool) := none

/-- `isBlockSymbol` of `src/static/js/ladsubrdisplib.js` lines 43-45 as it
actually executes: calling the missing member throws. -/
def isBlockSymbolCall (symbol : String) : Except String Bool :=
  match ladSymbolsMemberIsBlockSymbol with
  | some f => Except.ok (f symbol)
  | none => Except.error ("TypeError: LadSymbols.isBlockSymbol is not a function")

/-- The fixed closed set of block-instruction identifiers, from the variant
`src/unnamed/part_000` lines 98-105 (identical to the alias set of the
`symbols` table plus `compare`). -/
def blockSymbols : List String :=
  [("compare"), ("tmr"), ("tmra"), ("tmroff"),
   ("cntu"), ("cntd"), ("udc"),
   ("copy"), ("cpyblk"), ("fill"),
   ("pack"), ("unpack"), ("shfrg"),
   ("findeq"), ("mathdec"), ("mathhex"), ("sum"),
   ("call"), ("rt"), ("end"), ("for"), ("next")]

/-- Modelled from the spec: the `isBlockSymbol(name) -> boolean` predicate of
spec section 4.1 ("true for a fixed closed set of instruction identifiers"),
which the main renderer expects `LadSymbols` to provide but the snapshot of
`ladsymbols.js` does not.  It is realised exactly as in the sibling variant
`src/unnamed/part_000` lines 97-107 (`blockSymbols.includes(symbol)`); the
rendering definitions below use this resolution so that the layout logic can
be stated (see `isBlockSymbolCall` for the behaviour of the delegation as
shipped). -/
def isBlockSymbol (symbol : String) : Bool := blockSymbols.contains symbol

/-! ## Module state (ladsubrdisplib.js lines 9-36)

`currentProgram` and `currentAddresses` are module-level mutable variables;
we model them as an explicit state record threaded through `setProgram` and
`createRungList`. -/

structure SDState where
  currentProgram : Option ProgramData := none
  currentAddresses : List String := []
deriving DecidableEq

/-- The state at module load (lines 10-11). -/
def initState : SDState := {}

/-- `setProgram` (lines 23-28): always replaces `currentProgram`; replaces
`currentAddresses` only when `programData && programData.addresses` is truthy
(a present `addresses` array, even empty, is truthy; an absent one leaves the
previous list in place). -/
def setProgram (programData : Option ProgramData) (st : SDState) : SDState :=
  { currentProgram := programData,
    currentAddresses :=
      match programData with
      | some p =>
          match p.addresses with
          | some l => l
          | none => st.currentAddresses
      | none => st.currentAddresses }

/-- `getMonitorAddresses` (lines 34-36). -/
def getMonitorAddresses (st : SDState) : List String := st.currentAddresses

/-! ## The DOM-side projection of a rendered cell (spec section 3,
"RenderedCell") and the live-update pass `updateCellStates`
(ladsubrdisplib.js lines 289-344). -/

/-- The parts of a rendered `.ladder-cell` element that `updateCellStates`
reads or writes: the `data-addresses` attribute, the class list of the cell
`div`, of its inner `svg`, and of each primitive stroke element
(`line`, `circle`, `rect`, `text`) inside the svg, and the `.cell-value`
span text content and inline `display` style. -/
structure RCell where
  addressesAttr : Option String := none
  classes : List String := []
  svgClasses : List String := []
  primClasses : List (List String) := []
  valueText : String := ""
  valueDisplay : Option String := none
deriving DecidableEq

/-- JS `str.split(",")` over the characters of `str`. -/
def splitCommaAux : List Char → List Char → List (List Char)
  | [], acc => [acc.reverse]
  | c :: cs, acc =>
      if c = ',' then acc.reverse :: splitCommaAux cs []
      else splitCommaAux cs (c :: acc)

def jsSplitComma (s : String) : List String :=
  (splitCommaAux s.data []).map List.asString

/-- `addressesStr.split(',').filter(a => a)`: the monitored address list a
`data-addresses` attribute of a cell denotes (empty pieces are falsy and
dropped). -/
def monitoredAddrs (attr : String) : List String :=
  (jsSplitComma attr).filter (fun a => a ≠ "")

/-- JS property lookup `dataValues[addr]` on the snapshot object, `none` when
`addr in dataValues` is false. -/
def lookupVal (dv : List (String × JSVal)) (a : String) : Option JSVal :=
  (dv.find? (fun p => p.1 == a)).map (fun p => p.2)

/-- One iteration of the `addresses.forEach` loop (lines 302-314): state is
the pair `(isOn, displayValue)`. -/
def updStep (dv : List (String × JSVal)) (st : Bool × Option JSVal)
    (addr : String) : Bool × Option JSVal :=
  match lookupVal dv addr with
  | none => st
  | some v =>
      match v with
      | .bool b => (st.1 || b, st.2)
      | .num q => (st.1 || (q != 0), some (.num q))
      | .str s => (st.1, some (.str s))
      | .null => st
      | .undef => st

/-- `classList.remove('MB_ladderoff','MB_ladderon')` followed by
`classList.add` of the tag matching `isOn`. -/
def setTag (isOn : Bool) (l : List String) : List String :=
  (l.filter (fun cls => cls ≠ "MB_ladderoff" ∧ cls ≠ "MB_ladderon")) ++
    [if isOn then ("MB_ladderon") else ("MB_ladderoff")]

/-- The body of the per-cell callback of `querySelectorAll(.ladder-cell).forEach`
(lines 291-343) on one rendered cell: cells without a (non-empty) monitored
address list are skipped; otherwise the on/off fold runs over the addresses
and the tags, value text and value visibility are rewritten in place. -/
def updateCell (dv : List (String × JSVal)) (c : RCell) : RCell :=
  match c.addressesAttr with
  | none => c
  | some s =>
      let addrs := monitoredAddrs s
      if addrs.isEmpty then c
      else
        let st := addrs.foldl (updStep dv) (false, none)
        { c with
          classes := setTag st.1 c.classes,
          svgClasses := setTag st.1 c.svgClasses,
          primClasses := c.primClasses.map (setTag st.1),
          valueText :=
            match st.2 with
            | some v => formatValue v
            | none => c.valueText,
          valueDisplay :=
            some (if st.2.isSome then ("block") else ("none")) }

/-- `updateCellStates` (lines 289-344) over the list of rendered cells of the
document. -/
def updateCellStates (dv : List (String × JSVal)) (cells : List RCell) :
    List RCell :=
  cells.map (updateCell dv)

/-! ## createCellHtml (ladsubrdisplib.js lines 52-107) -/

/-- `isBlockSymbol(symbol) || cellType === block`. -/
def cellIsBlock (c : Cell) : Bool :=
  isBlockSymbol (effSymbol c) || (effType c == "block")

/-- The cell id: `cell-`, the row, `-`, the column. -/
def cellIdStr (c : Cell) : String :=
  ("cell-") ++ natStr (effRow c) ++ ("-") ++ natStr (effCol c)

/-- The cell class (line 67). -/
def cellClassStr (c : Cell) : String :=
  if cellIsBlock c then ("ladder-cell ladder-block-cell") else ("ladder-cell")

/-- The address display span (lines 73-78): the `addr` field when non-empty,
else the first entry of `addrs` when any, else nothing. -/
def addressDisplayStr (c : Cell) : String :=
  if effAddr c != "" then
    ("<span class=\"cell-address\">") ++ escapeHtml (effAddr c) ++ ("</span>")
  else if decide (0 < (effAddrs c).length) then
    ("<span class=\"cell-address\">") ++ escapeHtml ((effAddrs c).headD ("")) ++
      ("</span>")
  else ("")

/-- The block parameter span (lines 81-85): for block cells with parameters,
the first four parameters space-joined. -/
def paramsDisplayStr (c : Cell) : String :=
  if cellIsBlock c && decide (0 < (effParams c).length) then
    ("<span class=\"block-params\">") ++
      escapeHtml (String.intercalate (" ") ((effParams c).take 4)) ++ ("</span>")
  else ("")

/-- The `data-addresses` attribute (lines 88-90), present only when the cell
has monitored addresses. -/
def dataAttrsStr (c : Cell) : String :=
  if decide (0 < (effAddrs c).length) then
    ("data-addresses=\"") ++ escapeHtml (String.intercalate (",") (effAddrs c)) ++
      ("\"")
  else ("")

/-- `createCellHtml` (lines 52-107): the cell `div` with its monitoring data
attributes, the symbol svg, the optional parameter and address spans and the
(initially empty) value span. -/
def createCellHtml (c : Cell) : String :=
  ("<div id=\"") ++ cellIdStr c ++ ("\" class=\"") ++ cellClassStr c ++
    (" MB_ladderoff\"\n ") ++ dataAttrsStr c ++
    ("\n data-opcode=\"") ++ escapeHtml (effOpcode c) ++
    ("\"\n data-symbol=\"") ++ escapeHtml (effSymbol c) ++
    ("\"\n data-row=\"") ++ natStr (effRow c) ++
    ("\"\n data-col=\"") ++ natStr (effCol c) ++
    ("\">\n<div class=\"cell-symbol\">\n") ++
    getSymbol (effSymbol c) ("MB_ladderoff") ++
    ("\n</div>\n") ++ paramsDisplayStr c ++ ("\n") ++ addressDisplayStr c ++
    ("\n<span class=\"cell-value\"></span>\n</div>\n")

/-- `createSpacerHtml` (lines 115-119): a horizontal filler. -/
def createSpacerHtml (row col : Nat) : String :=
  ("<div class=\"ladder-spacer\" data-row=\"") ++ natStr row ++
    ("\" data-col=\"") ++ natStr col ++ ("\">\n") ++
    getSymbol ("hline") ("MB_ladderoff") ++ ("\n</div>")

/-- `createBranchConnector` (lines 128-134): one vertical connector at a
column spanning a row range. -/
def createBranchConnector (col startRow endRow : Nat) : String :=
  ("<div class=\"branch-connector\"\n data-col=\"") ++ natStr col ++
    ("\"\n data-start-row=\"") ++ natStr startRow ++
    ("\"\n data-end-row=\"") ++ natStr endRow ++
    ("\"\n style=\"--col: ") ++ natStr col ++ ("; --start-row: ") ++
    natStr startRow ++ ("; --end-row: ") ++ natStr endRow ++ (";\"></div>")

/-- The `ladder-empty` placeholder (line 195): consumes grid space without
drawing a line. -/
def emptyDivStr (row col : Nat) : String :=
  ("<div class=\"ladder-empty\" data-row=\"") ++ natStr row ++
    ("\" data-col=\"") ++ natStr col ++ ("\"></div>")

/-! ## createRungHtml (ladsubrdisplib.js lines 141-236) -/

/-- The 2-D cell grid, a `rows`-list of `cols`-lists. -/
abbrev Grid := List (List (Option Cell))

/-- `grid[r] = new Array(cols).fill(null)` for each `r` (lines 149-152). -/
def emptyGrid (rows cols : Nat) : Grid :=
  List.replicate rows (List.replicate cols none)

/-- Read `grid[r][c]` (missing rows or columns read as empty). -/
def gridGet (g : Grid) (r c : Nat) : Option Cell := (g.getD r []).getD c none

/-- Write `grid[r][c] = cell`. -/
def gridSet (g : Grid) (r c : Nat) (cell : Cell) : Grid :=
  g.set r ((g.getD r []).set c (some cell))

/-- One iteration of the `cells.forEach` placement loop (lines 156-166):
in-range cells are placed in the grid, and their column is recorded as a
branch column when the row is positive (`Set` insertion keeps first-insertion
order and uniqueness, modelled by append-if-absent). -/
def placeStep (rows cols : Nat) (st : Grid × List Nat) (cell : Cell) :
    Grid × List Nat :=
  if effRow cell < rows ∧ effCol cell < cols then
    (gridSet st.1 (effRow cell) (effCol cell) cell,
      if 0 < effRow cell then
        (if st.2.contains (effCol cell) then st.2 else st.2 ++ [effCol cell])
      else st.2)
  else st

/-- The grid and branch-column set built by the placement loop. -/
def placeCells (rows cols : Nat) (cells : List Cell) : Grid × List Nat :=
  cells.foldl (placeStep rows cols) (emptyGrid rows cols, [])

def rungGrid (rung : Rung) : Grid :=
  (placeCells (effNat1 rung.rows) (effNat1 rung.cols) rung.cells).1

def rungBranchCols (rung : Rung) : List Nat :=
  (placeCells (effNat1 rung.rows) (effNat1 rung.cols) rung.cells).2

/-- The inner loop test of lines 184-190: some later column of this row holds
a placed cell. -/
def hasLaterContent (g : Grid) (r c cols : Nat) : Bool :=
  (List.range cols).any (fun cc => decide (c < cc) && (gridGet g r cc).isSome)

/-- What the renderer emits at one grid position (lines 174-198). -/
inductive PosKind where
  | cellK (cell : Cell)
  | spacerK
  | emptyK
deriving DecidableEq

/-- The per-position decision of the row-rendering loop: the graphic of a
placed cell; on the main row a spacer for every hole; on a branch row a spacer
only when a later column of the row has content or the column is a branch
column, else the inert placeholder. -/
def kindAt (g : Grid) (bc : List Nat) (cols r c : Nat) : PosKind :=
  match gridGet g r c with
  | some cell => .cellK cell
  | none =>
      if r = 0 then .spacerK
      else if hasLaterContent g r c cols || bc.contains c then .spacerK
      else .emptyK

/-- Render one grid position according to its kind. -/
def renderPos (g : Grid) (bc : List Nat) (cols r c : Nat) : String :=
  match kindAt g bc cols r c with
  | .cellK cell => createCellHtml cell
  | .spacerK => createSpacerHtml r c
  | .emptyK => emptyDivStr r c

/-- The row class (line 171). -/
def rowClassStr (r : Nat) : String :=
  if r = 0 then ("ladder-row ladder-row-main")
  else ("ladder-row ladder-row-branch")

/-- One rendered row (lines 170-201). -/
def rowHtml (g : Grid) (bc : List Nat) (cols r : Nat) : String :=
  ("<div class=\"") ++ rowClassStr r ++ ("\" data-row=\"") ++ natStr r ++
    ("\">") ++ String.join ((List.range cols).map (renderPos g bc cols r)) ++
    ("</div>")

def rowsHtml (g : Grid) (bc : List Nat) (rows cols : Nat) : String :=
  String.join ((List.range rows).map (rowHtml g bc cols))

/-- The `maxRow` scan of lines 207-213: the last (hence largest) row index
below `rows` whose grid entry at `col` is non-null, `0` when there is none
(`minRow` is fixed at `0`). -/
def maxRowAt (g : Grid) (rows col : Nat) : Nat :=
  (List.range rows).foldl
    (fun mx r => if (gridGet g r col).isSome then r else mx) 0

/-- The connector list of lines 204-217: for each branch column whose
`maxRow` exceeds `minRow = 0`, one connector `(col, 0, maxRow)`. -/
def rungConnectors (g : Grid) (bc : List Nat) (rows : Nat) :
    List (Nat × Nat × Nat) :=
  bc.filterMap (fun col =>
    if 0 < maxRowAt g rows col then some (col, 0, maxRowAt g rows col)
    else none)

def connectorsHtml (g : Grid) (bc : List Nat) (rows : Nat) : String :=
  String.join ((rungConnectors g bc rows).map
    (fun t => createBranchConnector t.1 t.2.1 t.2.2))

/-- The rung header (lines 222-225); the comment span is emitted only for a
truthy (non-empty) comment, with the comment escaped. -/
def rungHeaderStr (rungnum : Nat) (comment : String) : String :=
  ("<div class=\"rung-header\">\n<span class=\"rung-number\">Network ") ++
    natStr rungnum ++ ("</span>\n") ++
    (if comment != "" then
      ("<span class=\"rung-comment\">") ++ escapeHtml comment ++ ("</span>")
    else ("")) ++ ("\n</div>")

/-- `createRungHtml` (lines 141-236): grid placement, row rendering and
branch connectors assembled into the rung markup. -/
def createRungHtml (rung : Rung) : String :=
  ("<div class=\"ladder-rung\" id=\"rung-") ++ natStr rung.rungnum ++
    ("\" data-rungnum=\"") ++ natStr rung.rungnum ++
    ("\" data-rows=\"") ++ natStr (effNat1 rung.rows) ++
    ("\" data-cols=\"") ++ natStr (effNat1 rung.cols) ++ ("\">\n") ++
    rungHeaderStr rung.rungnum (effStrEmpty rung.comment) ++
    ("\n<div class=\"ladder-grid\" style=\"--cols: ") ++
    natStr (effNat1 rung.cols) ++ ("; --rows: ") ++ natStr (effNat1 rung.rows) ++
    (";\">\n<div class=\"power-rail left\"></div>\n<div class=\"ladder-content\">\n") ++
    rowsHtml (rungGrid rung) (rungBranchCols rung) (effNat1 rung.rows)
      (effNat1 rung.cols) ++
    ("\n") ++
    connectorsHtml (rungGrid rung) (rungBranchCols rung) (effNat1 rung.rows) ++
    ("\n</div>\n<div class=\"power-rail right\"></div>\n</div>\n</div>\n")

/-! ## createRungList (ladsubrdisplib.js lines 243-271) -/

/-- The "No Program Loaded" placeholder (lines 247-253). -/
def noProgramHtml : String :=
  ("<div class=\"no-program\">\n<h3>No Program Loaded</h3>\n") ++
    ("<p>Start the web server with a program:</p>\n") ++
    ("<code>(mblogic-cl-web:quick-start \"test/plcprog.txt\" :port 8080)</code>\n</div>")

/-- The escaped error display (line 257). -/
def errorHtml (e : String) : String :=
  ("<div class=\"error-message\">") ++ escapeHtml e ++ ("</div>")

/-- The empty-subroutine placeholder (line 262). -/
def emptyRungsHtml : String :=
  ("<div class=\"no-program\"><p>No rungs in this subroutine</p></div>")

/-- Truthiness of `programData.error`: present and non-empty. -/
def pErrTruthy (p : ProgramData) : Bool :=
  match p.error with
  | some e => e != ""
  | none => false

/-- `createRungList` (lines 243-271): stores the program via `setProgram`,
then renders.  The `!programData || !programData.subrdata` test runs BEFORE
the `programData.error` test, so a program without a `subrdata` field shows
the "No Program Loaded" placeholder even when it carries an error field. -/
def createRungList (programData : Option ProgramData) (st : SDState) :
    String × SDState :=
  let st2 := setProgram programData st
  match programData with
  | none => (noProgramHtml, st2)
  | some p =>
      match p.subrdata with
      | none => (noProgramHtml, st2)
      | some rungs =>
          if pErrTruthy p then (errorHtml (effStrEmpty p.error), st2)
          else if rungs.isEmpty then (emptyRungsHtml, st2)
          else (String.join (rungs.map createRungHtml), st2)

/-- The DOM-side projection of `createCellHtml`: the parts of the rendered
cell that `updateCellStates` later reads and writes.  The class attribute
cell. The two-token class attribute splits into the class list; the svg carries
`ladder-symbol` and the state class; each primitive stroke carries the state
class; the `data-addresses` attribute round-trips through attribute parsing
to the comma-join of the addresses. -/
def rcellOfCell (c : Cell) : RCell :=
  { addressesAttr :=
      if decide (0 < (effAddrs c).length) then
        some (String.intercalate (",") (effAddrs c))
      else none,
    classes :=
      (if cellIsBlock c then [("ladder-cell"), ("ladder-block-cell")]
       else [("ladder-cell")]) ++ [("MB_ladderoff")],
    svgClasses := [("ladder-symbol"), ("MB_ladderoff")],
    primClasses :=
      List.replicate (primCount (resolveSymbol (effSymbol c))) [("MB_ladderoff")],
    valueText := "",
    valueDisplay := none }

/-! ## Helper lemmas for the update pass -/

theorem filter_idem_list {α : Type} (p : α → Bool) (l : List α) :
    (l.filter p).filter p = l.filter p := by
  induction l with
  | nil => rfl
  | cons a l ih =>
      by_cases h : p a
      · simp [List.filter, h, ih]
      · simp [List.filter, h, ih]

theorem setTag_idem (b : Bool) (l : List String) :
    setTag b (setTag b l) = setTag b l := by
  unfold setTag
  rw [List.filter_append, filter_idem_list]
  have hF :
      List.filter (fun cls => decide (cls ≠ "MB_ladderoff" ∧ cls ≠ "MB_ladderon"))
        [if b = true then ("MB_ladderon") else ("MB_ladderoff")] = [] := by
    cases b <;> rfl
  rw [hF, List.append_nil]

theorem updateCell_skip_none (dv : List (String × JSVal)) (c : RCell)
    (h : c.addressesAttr = none) : updateCell dv c = c := by
  simp [updateCell, h]

theorem updateCell_skip_empty (dv : List (String × JSVal)) (c : RCell)
    (s : String) (h : c.addressesAttr = some s)
    (he : (monitoredAddrs s).isEmpty = true) : updateCell dv c = c := by
  simp [updateCell, h, he]

theorem updateCell_eq (dv : List (String × JSVal)) (c : RCell) (s : String)
    (h : c.addressesAttr = some s)
    (he : ¬ (monitoredAddrs s).isEmpty = true) :
    updateCell dv c =
      RCell.mk (some s)
        (setTag ((monitoredAddrs s).foldl (updStep dv) (false, none)).1 c.classes)
        (setTag ((monitoredAddrs s).foldl (updStep dv) (false, none)).1 c.svgClasses)
        (c.primClasses.map
          (setTag ((monitoredAddrs s).foldl (updStep dv) (false, none)).1))
        (match ((monitoredAddrs s).foldl (updStep dv) (false, none)).2 with
         | some v => formatValue v
         | none => c.valueText)
        (some (if ((monitoredAddrs s).foldl (updStep dv) (false, none)).2.isSome
          then ("block") else ("none"))) := by
  simp [updateCell, h, he]

theorem updateCell_idem (dv : List (String × JSVal)) (c : RCell) :
    updateCell dv (updateCell dv c) = updateCell dv c := by
  cases h : c.addressesAttr with
  | none =>
      rw [updateCell_skip_none dv c h, updateCell_skip_none dv c h]
  | some s =>
      by_cases he : (monitoredAddrs s).isEmpty = true
      · rw [updateCell_skip_empty dv c s h he, updateCell_skip_empty dv c s h he]
      · rw [updateCell_eq dv c s h he]
        rw [updateCell_eq dv _ s rfl he]
        cases hst : ((monitoredAddrs s).foldl (updStep dv) (false, none)).2 with
        | none =>
            simp [hst, setTag_idem, List.map_map, Function.comp_def]
        | some v =>
            simp [hst, setTag_idem, List.map_map, Function.comp_def]

/-- C5: invoking the live-update pass twice with the same address-to-value
snapshot yields exactly the same rendered-cell states (tags, value text and
value visibility) as invoking it once; the pass reads only its snapshot
argument and the attributes of the cells, so no history accumulates. -/
theorem updateCellStates_idempotent (dv : List (String × JSVal))
    (cells : List RCell) :
    updateCellStates dv (updateCellStates dv cells) =
      updateCellStates dv cells := by
  unfold updateCellStates
  rw [List.map_map]
  exact List.map_congr_left (fun x _ => updateCell_idem dv x)

/-! ## C7: the isBlockSymbol delegation -/

/-- C7: the claim expects `isBlockSymbol` to be a total boolean-valued
function, true exactly on the fixed block-instruction set.  The shipped code
(`src/static/js/ladsubrdisplib.js` lines 43-45) delegates to
`LadSymbols.isBlockSymbol`, a member the `LadSymbols` module
(part_001 lines 509-514) does not export, so the call throws a `TypeError`
for every name instead of returning a boolean — contradicting its own JSDoc (`@returns {boolean}`), the sibling variant
`src/unnamed/part_000` lines 97-107, and spec section 4.1. -/
theorem isBlockSymbol_delegation_throws :
    ∀ symbol : String,
      isBlockSymbolCall symbol =
        Except.error ("TypeError: LadSymbols.isBlockSymbol is not a function") :=
  fun _ => rfl

/-! ## C9: setProgram and prior state -/

/-- A program that carries an address list. -/
def pWithX1 : ProgramData := { addresses := some [("X1")] }

/-- A program without an `addresses` field. -/
def pNoAddresses : ProgramData := {}

/-- C9 counterexample: `setProgram` does NOT replace prior state wholesale.
Setting a program that lacks an `addresses` field retains the previous
monitored-address list of the previous program, so `getMonitorAddresses` after
`setProgram p` differs between a run whose previous program carried
addresses and a fresh run. -/
theorem setProgram_prior_state_leak :
    getMonitorAddresses
        (setProgram (some pNoAddresses) (setProgram (some pWithX1) initState)) ≠
      getMonitorAddresses (setProgram (some pNoAddresses) initState) := by
  decide

/-- C9 amended: `setProgram` always replaces `currentProgram` wholesale, and
whenever the new ProgramData carries an `addresses` field the monitored
address list afterwards equals that field — hence depends only on the new
program; only when `addresses` is absent does the previously stored list
survive. -/
theorem setProgram_wholesale_addresses (p : ProgramData) (l : List String)
    (h : p.addresses = some l) :
    ∀ st : SDState,
      getMonitorAddresses (setProgram (some p) st) = l ∧
        (setProgram (some p) st).currentProgram = some p := by
  intro st
  constructor
  · simp [getMonitorAddresses, setProgram, h]
  · rfl

/-- C9 witness: the amended theorem at a concrete program and two different
prior states. -/
theorem setProgram_wholesale_addresses_witness :
    getMonitorAddresses (setProgram (some pWithX1) initState) = [("X1")] ∧
      getMonitorAddresses
          (setProgram (some pWithX1) (setProgram (some pNoAddresses) initState)) =
        [("X1")] :=
  ⟨(setProgram_wholesale_addresses pWithX1 [("X1")] rfl initState).1,
   (setProgram_wholesale_addresses pWithX1 [("X1")] rfl
      (setProgram (some pNoAddresses) initState)).1⟩

/-! ## C3: a program carrying only an error field -/

/-- The ProgramData of the claimed scenario: an `error` field and nothing
else. -/
def pCompileFailed : ProgramData := { error := some ("compile failed") }

/-- C3 counterexample: for `{error: "compile failed"}` the renderer does NOT
return the escaped error display.  The `!programData.subrdata` test at the
top of `createRungList` (line 246) runs before the `programData.error` test
(line 256), and this program has no `subrdata`, so the output is the
"No Program Loaded" placeholder; the error-message markup never appears. -/
theorem error_only_program_shows_no_program :
    (createRungList (some pCompileFailed) initState).1 = noProgramHtml ∧
      (createRungList (some pCompileFailed) initState).1 ≠
        errorHtml ("compile failed") := by
  constructor
  · rfl
  · decide

/-- C3 amended: a program carrying BOTH a `subrdata` field and a non-empty
`error` field yields solely the escaped error display (no rung markup);
but when `subrdata` is absent the error field is never consulted and the
"No Program Loaded" placeholder is returned instead. -/
theorem error_program_with_subrdata_shows_error (p : ProgramData)
    (rungs : List Rung) (e : String) (hsub : p.subrdata = some rungs)
    (herr : p.error = some e) (hne : e ≠ ("")) (st : SDState) :
    (createRungList (some p) st).1 = errorHtml e := by
  have ht : pErrTruthy p = true := by
    simp [pErrTruthy, herr, hne]
  simp [createRungList, hsub, ht, effStrEmpty, herr]

/-- C3 witness: the amended theorem at a concrete program with `subrdata`
present and a non-empty error string. -/
theorem error_program_with_subrdata_shows_error_witness :
    (createRungList
        (some { subrdata := some [], error := some ("compile failed") })
        initState).1 =
      errorHtml ("compile failed") :=
  error_program_with_subrdata_shows_error
    { subrdata := some [], error := some ("compile failed") } [] ("compile failed")
    rfl rfl (by decide) initState

/-! ## C4: semantics of the on/off fold -/

/-- Boolean version of the "this address turns the cell on" condition of the
forEach body: a boolean value that is true, or a numeric value that is not
zero. -/
def onCondB (dv : List (String × JSVal)) (a : String) : Bool :=
  match lookupVal dv a with
  | some (.bool b) => b
  | some (.num q) => q != 0
  | _ => false

/-- The same condition, spec-side: the address maps to boolean `true` or to a
non-zero number. -/
def onCondition (dv : List (String × JSVal)) (a : String) : Prop :=
  lookupVal dv a = some (.bool true) ∨
    ∃ q : ℚ, q ≠ 0 ∧ lookupVal dv a = some (.num q)

theorem onCondB_iff (dv : List (String × JSVal)) (a : String) :
    onCondB dv a = true ↔ onCondition dv a := by
  unfold onCondB onCondition
  cases h : lookupVal dv a with
  | none => simp
  | some v =>
      cases v with
      | bool b => cases b <;> simp
      | num q =>
          simp only [bne_iff_ne, Option.some.injEq, JSVal.num.injEq]
          constructor
          · intro hq
            exact Or.inr ⟨q, hq, rfl⟩
          · rintro (hq | ⟨q2, hq2, rfl⟩)
            · cases hq
            · exact hq2
      | str s => simp
      | null => simp
      | undef => simp

/-- The displayed value an address contributes: numbers and other non-null,
non-undefined, non-boolean values (modelled by strings). -/
def dispOf (dv : List (String × JSVal)) (a : String) : Option JSVal :=
  match lookupVal dv a with
  | some (.num q) => some (.num q)
  | some (.str s) => some (.str s)
  | _ => none

/-- The last displayable value over the addresses in order: the fold
overwrites `displayValue`, so the final value is the last one contributed. -/
def lastDisp (dv : List (String × JSVal)) (l : List String) : Option JSVal :=
  l.reverse.findSome? (dispOf dv)

theorem updStep_fst (dv : List (String × JSVal)) (st : Bool × Option JSVal)
    (a : String) : (updStep dv st a).1 = (st.1 || onCondB dv a) := by
  unfold updStep onCondB
  cases h : lookupVal dv a with
  | none => simp
  | some v => cases v <;> simp

theorem updStep_snd (dv : List (String × JSVal)) (st : Bool × Option JSVal)
    (a : String) :
    (updStep dv st a).2 =
      match dispOf dv a with
      | some v => some v
      | none => st.2 := by
  unfold updStep dispOf
  cases h : lookupVal dv a with
  | none => simp
  | some v => cases v <;> simp

theorem foldUpd_fst (dv : List (String × JSVal)) (l : List String) :
    ∀ init : Bool × Option JSVal,
      (l.foldl (updStep dv) init).1 = (init.1 || l.any (onCondB dv)) := by
  induction l with
  | nil => intro init; simp
  | cons a l ih =>
      intro init
      rw [List.foldl_cons, ih, updStep_fst, List.any_cons, Bool.or_assoc]

theorem findSome?_append_match {α β : Type} (f : α → Option β)
    (l1 l2 : List α) :
    (l1 ++ l2).findSome? f =
      match l1.findSome? f with
      | some b => some b
      | none => l2.findSome? f := by
  induction l1 with
  | nil => simp
  | cons a l ih =>
      cases hf : f a <;> simp [List.findSome?_cons, hf, ih]

theorem lastDisp_cons (dv : List (String × JSVal)) (a : String)
    (l : List String) :
    lastDisp dv (a :: l) =
      match lastDisp dv l with
      | some v => some v
      | none => dispOf dv a := by
  unfold lastDisp
  rw [List.reverse_cons, findSome?_append_match]
  have h1 : List.findSome? (dispOf dv) [a] = dispOf dv a := by
    cases hf : dispOf dv a <;> simp [List.findSome?_cons, hf]
  rw [h1]
  cases List.findSome? (dispOf dv) l.reverse <;> rfl

theorem foldUpd_snd (dv : List (String × JSVal)) (l : List String) :
    ∀ init : Bool × Option JSVal,
      (l.foldl (updStep dv) init).2 =
        match lastDisp dv l with
        | some v => some v
        | none => init.2 := by
  induction l with
  | nil => intro init; simp [lastDisp]
  | cons a l ih =>
      intro init
      rw [List.foldl_cons, ih, lastDisp_cons]
      cases lastDisp dv l with
      | none => simp [updStep_snd]
      | some v => simp

theorem mem_on_setTag (b : Bool) (l : List String) :
    ("MB_ladderon") ∈ setTag b l ↔ b = true := by
  unfold setTag
  rw [List.mem_append]
  constructor
  · rintro (hmem | hmem)
    · exact absurd (List.of_mem_filter hmem) (by decide)
    · cases b
      · exact absurd hmem (by decide)
      · rfl
  · intro hb
    subst hb
    right
    decide

theorem mem_off_setTag (b : Bool) (l : List String) :
    ("MB_ladderoff") ∈ setTag b l ↔ b = false := by
  unfold setTag
  rw [List.mem_append]
  constructor
  · rintro (hmem | hmem)
    · exact absurd (List.of_mem_filter hmem) (by decide)
    · cases b
      · rfl
      · exact absurd hmem (by decide)
  · intro hb
    subst hb
    right
    decide

/-- C4: after `updateCellStates(dataValues)`, a rendered cell with a
non-empty monitored address list is tagged on exactly when some monitored
address maps to boolean `true` or to a non-zero number, and tagged off
otherwise; the displayed value is the (last) numeric or other non-null value
contributed by the addresses — numbers formatted by `formatValue` as an
integer string when exact and to two decimals otherwise — and is shown only
when such a value exists; when no monitored address is present in the
snapshot the cell is tagged off with the value display hidden. -/
theorem updateCellStates_semantics (dv : List (String × JSVal)) (c : RCell)
    (s : String) (hattr : c.addressesAttr = some s)
    (hne : ¬ (monitoredAddrs s).isEmpty = true) :
    (("MB_ladderon") ∈ (updateCell dv c).classes ↔
      ∃ a ∈ monitoredAddrs s, onCondition dv a) ∧
    (("MB_ladderoff") ∈ (updateCell dv c).classes ↔
      ¬ ∃ a ∈ monitoredAddrs s, onCondition dv a) ∧
    (∀ v, lastDisp dv (monitoredAddrs s) = some v →
      (updateCell dv c).valueText = formatValue v ∧
        (updateCell dv c).valueDisplay = some ("block")) ∧
    (lastDisp dv (monitoredAddrs s) = none →
      (updateCell dv c).valueDisplay = some ("none")) ∧
    ((∀ a ∈ monitoredAddrs s, lookupVal dv a = none) →
      ("MB_ladderoff") ∈ (updateCell dv c).classes ∧
        (updateCell dv c).valueDisplay = some ("none")) ∧
    (∀ q : ℚ, formatValue (.num q) =
      if q.den = 1 then intStr q.num else toFixed2 q) := by
  rw [updateCell_eq dv c s hattr hne]
  have hfst := foldUpd_fst dv (monitoredAddrs s) (false, none)
  have hsnd := foldUpd_snd dv (monitoredAddrs s) (false, none)
  have hex : ((monitoredAddrs s).any (onCondB dv) = true) ↔
      ∃ a ∈ monitoredAddrs s, onCondition dv a := by
    rw [List.any_eq_true]
    constructor
    · rintro ⟨a, ha, hb⟩
      exact ⟨a, ha, (onCondB_iff dv a).mp hb⟩
    · rintro ⟨a, ha, hb⟩
      exact ⟨a, ha, (onCondB_iff dv a).mpr hb⟩
  refine ⟨?_, ?_, ?_, ?_, ?_, fun q => rfl⟩
  · rw [mem_on_setTag, hfst, Bool.false_or, hex]
  · rw [mem_off_setTag, hfst, Bool.false_or, ← hex]
    simp
  · intro v hv
    simp [hsnd, hv]
  · intro hv
    simp only [hsnd, hv]
    rfl
  · intro hnone
    have hB : ∀ a ∈ monitoredAddrs s, onCondB dv a = false := by
      intro a ha
      unfold onCondB
      rw [hnone a ha]
    have hany : (monitoredAddrs s).any (onCondB dv) = false := by
      rw [Bool.eq_false_iff]
      intro hcontra
      obtain ⟨a, ha, hb⟩ := List.any_eq_true.mp hcontra
      rw [hB a ha] at hb
      cases hb
    have hld : lastDisp dv (monitoredAddrs s) = none := by
      unfold lastDisp
      rw [List.findSome?_eq_none_iff]
      intro a ha
      unfold dispOf
      rw [hnone a (List.mem_reverse.mp ha)]
    constructor
    · rw [mem_off_setTag, hfst, Bool.false_or, hany]
    · simp only [hsnd, hld]
      rfl

/-- A rendered cell monitoring `X1` and `Y2`. -/
def wRCell : RCell :=
  { addressesAttr := some ("X1,Y2"),
    classes := [("ladder-cell"), ("MB_ladderoff")],
    svgClasses := [("ladder-symbol"), ("MB_ladderoff")],
    primClasses := [[("MB_ladderoff")]],
    valueText := "",
    valueDisplay := none }

/-- A snapshot turning `X1` on. -/
def wDv : List (String × JSVal) := [(("X1"), JSVal.bool true)]

/-- C4 witness: the semantics theorem applied to a concrete rendered cell and
snapshot. -/
theorem updateCellStates_semantics_witness :
    (("MB_ladderon") ∈ (updateCell wDv wRCell).classes ↔
      ∃ a ∈ monitoredAddrs ("X1,Y2"), onCondition wDv a) ∧
    (lastDisp wDv (monitoredAddrs ("X1,Y2")) = none →
      (updateCell wDv wRCell).valueDisplay = some ("none")) :=
  ⟨(updateCellStates_semantics wDv wRCell ("X1,Y2") rfl (by decide)).1,
   (updateCellStates_semantics wDv wRCell ("X1,Y2") rfl (by decide)).2.2.2.1⟩

/-! ## C8: exclusive and uniform state tags -/

/-- A class list carries exactly one of the two state tags. -/
def oneTag (l : List String) : Prop :=
  (("MB_ladderon") ∈ l ∧ ("MB_ladderoff") ∉ l) ∨
    (("MB_ladderoff") ∈ l ∧ ("MB_ladderon") ∉ l)

/-- Two class lists carry the same state tag. -/
def sameTag (l1 l2 : List String) : Prop :=
  (("MB_ladderon") ∈ l1 ↔ ("MB_ladderon") ∈ l2)

/-- The cell container, its svg and every primitive stroke inside carry
exactly one state tag, and all of them the same one. -/
def wellTagged (c : RCell) : Prop :=
  oneTag c.classes ∧ oneTag c.svgClasses ∧ sameTag c.classes c.svgClasses ∧
    ∀ p ∈ c.primClasses, oneTag p ∧ sameTag c.classes p

theorem oneTag_setTag (b : Bool) (l : List String) : oneTag (setTag b l) := by
  cases b
  · right
    exact ⟨(mem_off_setTag false l).mpr rfl,
      fun h => absurd ((mem_on_setTag false l).mp h) (by decide)⟩
  · left
    exact ⟨(mem_on_setTag true l).mpr rfl,
      fun h => absurd ((mem_off_setTag true l).mp h) (by decide)⟩

theorem render_wellTagged (cell : Cell) : wellTagged (rcellOfCell cell) := by
  have hsvg : (rcellOfCell cell).svgClasses =
      [("ladder-symbol"), ("MB_ladderoff")] := rfl
  have hprim : ∀ p ∈ (rcellOfCell cell).primClasses, p = [("MB_ladderoff")] := by
    intro p hp
    exact List.eq_of_mem_replicate hp
  by_cases hib : cellIsBlock cell = true
  · have hcls : (rcellOfCell cell).classes =
        [("ladder-cell"), ("ladder-block-cell"), ("MB_ladderoff")] := by
      simp [rcellOfCell, hib]
    refine ⟨?_, ?_, ?_, ?_⟩
    · rw [hcls]; right; exact ⟨by decide, by decide⟩
    · rw [hsvg]; right; exact ⟨by decide, by decide⟩
    · rw [hcls, hsvg]; unfold sameTag; decide
    · intro p hp
      rw [hprim p hp, hcls]
      exact ⟨Or.inr ⟨by decide, by decide⟩, by unfold sameTag; decide⟩
  · have hcls : (rcellOfCell cell).classes =
        [("ladder-cell"), ("MB_ladderoff")] := by
      simp [rcellOfCell, hib]
    refine ⟨?_, ?_, ?_, ?_⟩
    · rw [hcls]; right; exact ⟨by decide, by decide⟩
    · rw [hsvg]; right; exact ⟨by decide, by decide⟩
    · rw [hcls, hsvg]; unfold sameTag; decide
    · intro p hp
      rw [hprim p hp, hcls]
      exact ⟨Or.inr ⟨by decide, by decide⟩, by unfold sameTag; decide⟩

theorem updateCell_wellTagged (dv : List (String × JSVal)) (c : RCell)
    (hc : wellTagged c) : wellTagged (updateCell dv c) := by
  cases h : c.addressesAttr with
  | none => rw [updateCell_skip_none dv c h]; exact hc
  | some s =>
      by_cases he : (monitoredAddrs s).isEmpty = true
      · rw [updateCell_skip_empty dv c s h he]; exact hc
      · rw [updateCell_eq dv c s h he]
        refine ⟨oneTag_setTag _ _, oneTag_setTag _ _, ?_, ?_⟩
        · unfold sameTag
          rw [mem_on_setTag, mem_on_setTag]
        · intro p hp
          obtain ⟨q, _, rfl⟩ := List.mem_map.mp hp
          refine ⟨oneTag_setTag _ _, ?_⟩
          unfold sameTag
          rw [mem_on_setTag, mem_on_setTag]

/-- C8: after any number of `updateCellStates` passes over a rendered cell,
the cell carries exactly one of the two state tags (never both, never
neither), and the same single tag is carried by its svg and by every
primitive stroke element inside its graphic, so no cell is ever partially
highlighted. -/
theorem cell_tags_exclusive_and_uniform (cell : Cell)
    (dvs : List (List (String × JSVal))) :
    wellTagged (dvs.foldl (fun st dv => updateCell dv st) (rcellOfCell cell)) := by
  suffices h : ∀ c : RCell, wellTagged c →
      wellTagged (dvs.foldl (fun st dv => updateCell dv st) c) from
    h _ (render_wellTagged cell)
  induction dvs with
  | nil => intro c hc; exact hc
  | cons dv dvs ih =>
      intro c hc
      exact ih _ (updateCell_wellTagged dv c hc)

/-! ## Grid lemmas for the layout algorithm -/

theorem getD_set_self {α : Type} (l : List α) (i : Nat) (a d : α)
    (h : i < l.length) : (l.set i a).getD i d = a := by
  rw [List.getD_eq_getElem?_getD, List.getElem?_set_self (by simpa using h)]
  rfl

theorem getD_set_ne {α : Type} (l : List α) (i j : Nat) (a d : α) (h : i ≠ j) :
    (l.set i a).getD j d = l.getD j d := by
  rw [List.getD_eq_getElem?_getD, List.getElem?_set_ne h,
    ← List.getD_eq_getElem?_getD]

theorem getD_replicate_lt {α : Type} (n i : Nat) (x d : α) (h : i < n) :
    (List.replicate n x).getD i d = x := by
  rw [List.getD_eq_getElem?_getD, List.getElem?_replicate, if_pos h]
  rfl

theorem getD_oob {α : Type} (l : List α) (i : Nat) (d : α)
    (h : l.length ≤ i) : l.getD i d = d :=
  List.getD_eq_default l d h

/-- The placement loop maintains a `rows × cols` grid. -/
def GDims (g : Grid) (rows cols : Nat) : Prop :=
  g.length = rows ∧ ∀ row ∈ g, row.length = cols

theorem gdims_empty (rows cols : Nat) : GDims (emptyGrid rows cols) rows cols := by
  refine ⟨List.length_replicate .., ?_⟩
  intro row hrow
  rw [List.eq_of_mem_replicate hrow]
  exact List.length_replicate ..

theorem gdims_gridSet (g : Grid) (rows cols r c : Nat) (cell : Cell)
    (hg : GDims g rows cols) (hr : r < rows) :
    GDims (gridSet g r c cell) rows cols := by
  refine ⟨by rw [gridSet, List.length_set, hg.1], ?_⟩
  intro row hrow
  rcases List.mem_or_eq_of_mem_set hrow with hmem | rfl
  · exact hg.2 row hmem
  · rw [List.length_set]
    have hrl : r < g.length := hg.1 ▸ hr
    rw [List.getD_eq_getElem (l := g) (d := []) hrl]
    exact hg.2 _ (List.getElem_mem hrl)

theorem gridGet_emptyGrid (rows cols r c : Nat) :
    gridGet (emptyGrid rows cols) r c = none := by
  unfold gridGet emptyGrid
  by_cases hr : r < rows
  · rw [getD_replicate_lt _ _ _ _ hr]
    by_cases hc : c < cols
    · rw [getD_replicate_lt _ _ _ _ hc]
    · rw [getD_oob _ _ _ (by simpa using le_of_not_lt hc)]
  · rw [getD_oob (List.replicate rows (List.replicate cols none)) r ([])
      (by simpa using le_of_not_lt hr)]
    cases c <;> rfl

theorem gridGet_gridSet_self (g : Grid) (rows cols r c : Nat) (cell : Cell)
    (hg : GDims g rows cols) (hr : r < rows) (hc : c < cols) :
    gridGet (gridSet g r c cell) r c = some cell := by
  unfold gridGet gridSet
  have hrl : r < g.length := hg.1 ▸ hr
  rw [getD_set_self _ _ _ _ (by simpa using hrl)]
  have hcl : c < (g.getD r []).length := by
    rw [List.getD_eq_getElem (l := g) (d := []) hrl]
    rw [hg.2 _ (List.getElem_mem hrl)]
    exact hc
  exact getD_set_self _ _ _ _ hcl

theorem gridGet_gridSet_ne (g : Grid) (r c r2 c2 : Nat) (cell : Cell)
    (h : ¬(r = r2 ∧ c = c2)) :
    gridGet (gridSet g r c cell) r2 c2 = gridGet g r2 c2 := by
  unfold gridGet gridSet
  by_cases hrr : r = r2
  · subst hrr
    have hcc : c ≠ c2 := fun hc => h ⟨rfl, hc⟩
    by_cases hrl : r < g.length
    · rw [getD_set_self _ _ _ _ (by simpa using hrl), getD_set_ne _ _ _ _ _ hcc]
    · rw [List.set_eq_of_length_le (le_of_not_lt hrl)]
  · rw [getD_set_ne _ _ _ _ _ hrr]

theorem placeStep_gdims (rows cols : Nat) (acc : Grid × List Nat) (cell : Cell)
    (hg : GDims acc.1 rows cols) :
    GDims (placeStep rows cols acc cell).1 rows cols := by
  unfold placeStep
  by_cases hin : effRow cell < rows ∧ effCol cell < cols
  · rw [if_pos hin]
    exact gdims_gridSet _ _ _ _ _ _ hg hin.1
  · rw [if_neg hin]
    exact hg

theorem placeStep_branch_mem (rows cols c : Nat) (acc : Grid × List Nat)
    (cell : Cell) :
    c ∈ (placeStep rows cols acc cell).2 ↔
      c ∈ acc.2 ∨ (effRow cell < rows ∧ effCol cell < cols ∧
        0 < effRow cell ∧ effCol cell = c) := by
  unfold placeStep
  by_cases hin : effRow cell < rows ∧ effCol cell < cols
  · rw [if_pos hin]
    by_cases hrow : 0 < effRow cell
    · rw [if_pos hrow]
      by_cases hcm : acc.2.contains (effCol cell) = true
      · have hmem : effCol cell ∈ acc.2 := List.elem_iff.mp hcm
        rw [if_pos hcm]
        dsimp only
        constructor
        · exact fun h => Or.inl h
        · rintro (h | ⟨_, _, _, rfl⟩)
          · exact h
          · exact hmem
      · rw [if_neg hcm]
        dsimp only
        rw [List.mem_append, List.mem_singleton]
        constructor
        · rintro (h | rfl)
          · exact Or.inl h
          · exact Or.inr ⟨hin.1, hin.2, hrow, rfl⟩
        · rintro (h | ⟨_, _, _, rfl⟩)
          · exact Or.inl h
          · exact Or.inr rfl
    · rw [if_neg hrow]
      dsimp only
      constructor
      · exact fun h => Or.inl h
      · rintro (h | ⟨_, _, hrow2, _⟩)
        · exact h
        · exact absurd hrow2 hrow
  · rw [if_neg hin]
    constructor
    · exact fun h => Or.inl h
    · rintro (h | ⟨h1, h2, _, _⟩)
      · exact h
      · exact absurd ⟨h1, h2⟩ hin

theorem placeStep_grid_isSome (rows cols : Nat) (acc : Grid × List Nat)
    (cell : Cell) (hg : GDims acc.1 rows cols) (r c : Nat) :
    ((gridGet (placeStep rows cols acc cell).1 r c).isSome = true ↔
      (gridGet acc.1 r c).isSome = true ∨ (effRow cell < rows ∧
        effCol cell < cols ∧ effRow cell = r ∧ effCol cell = c)) := by
  unfold placeStep
  by_cases hin : effRow cell < rows ∧ effCol cell < cols
  · rw [if_pos hin]
    by_cases heq : effRow cell = r ∧ effCol cell = c
    · obtain ⟨hr2, hc2⟩ := heq
      subst hr2; subst hc2
      rw [gridGet_gridSet_self _ rows cols _ _ _ hg hin.1 hin.2]
      constructor
      · exact fun _ => Or.inr ⟨hin.1, hin.2, rfl, rfl⟩
      · exact fun _ => rfl
    · rw [gridGet_gridSet_ne _ _ _ _ _ _ heq]
      constructor
      · exact fun h => Or.inl h
      · rintro (h | ⟨_, _, hr2, hc2⟩)
        · exact h
        · exact absurd ⟨hr2, hc2⟩ heq
  · rw [if_neg hin]
    constructor
    · exact fun h => Or.inl h
    · rintro (h | ⟨h1, h2, _, _⟩)
      · exact h
      · exact absurd ⟨h1, h2⟩ hin

theorem foldPlace_gdims (rows cols : Nat) (cells : List Cell) :
    ∀ acc : Grid × List Nat, GDims acc.1 rows cols →
      GDims ((cells.foldl (placeStep rows cols) acc).1) rows cols := by
  induction cells with
  | nil => intro acc hg; exact hg
  | cons cell cells ih =>
      intro acc hg
      rw [List.foldl_cons]
      exact ih _ (placeStep_gdims rows cols acc cell hg)

theorem foldPlace_branch (rows cols c : Nat) (cells : List Cell) :
    ∀ acc : Grid × List Nat,
      (c ∈ (cells.foldl (placeStep rows cols) acc).2 ↔
        c ∈ acc.2 ∨ ∃ cell ∈ cells, effRow cell < rows ∧ effCol cell < cols ∧
          0 < effRow cell ∧ effCol cell = c) := by
  induction cells with
  | nil => intro acc; simp
  | cons cell cells ih =>
      intro acc
      rw [List.foldl_cons, ih, placeStep_branch_mem, List.exists_mem_cons_iff]
      tauto

theorem foldPlace_grid (rows cols r c : Nat) (cells : List Cell) :
    ∀ acc : Grid × List Nat, GDims acc.1 rows cols →
      ((gridGet (cells.foldl (placeStep rows cols) acc).1 r c).isSome = true ↔
        (gridGet acc.1 r c).isSome = true ∨ ∃ cell ∈ cells,
          effRow cell < rows ∧ effCol cell < cols ∧
            effRow cell = r ∧ effCol cell = c) := by
  induction cells with
  | nil => intro acc _; simp
  | cons cell cells ih =>
      intro acc hg
      rw [List.foldl_cons, ih _ (placeStep_gdims rows cols acc cell hg),
        placeStep_grid_isSome rows cols acc cell hg, List.exists_mem_cons_iff]
      tauto

/-- The branch-column set of a rung holds exactly the columns of in-bounds
placed cells with positive row. -/
theorem rungBranchCols_mem (rung : Rung) (c : Nat) :
    c ∈ rungBranchCols rung ↔ ∃ cell ∈ rung.cells,
      effRow cell < effNat1 rung.rows ∧ effCol cell < effNat1 rung.cols ∧
        0 < effRow cell ∧ effCol cell = c := by
  unfold rungBranchCols placeCells
  rw [foldPlace_branch]
  simp

/-- The rung grid holds a cell at `(r, c)` exactly when some in-bounds cell
of the rung sits at `(r, c)`. -/
theorem rungGrid_isSome (rung : Rung) (r c : Nat) :
    (gridGet (rungGrid rung) r c).isSome = true ↔ ∃ cell ∈ rung.cells,
      effRow cell < effNat1 rung.rows ∧ effCol cell < effNat1 rung.cols ∧
        effRow cell = r ∧ effCol cell = c := by
  unfold rungGrid placeCells
  rw [foldPlace_grid _ _ _ _ _ _ (gdims_empty _ _)]
  rw [gridGet_emptyGrid]
  simp

/-! ## maxRow and connector lemmas -/

theorem maxRowAt_zero (g : Grid) (col : Nat) : maxRowAt g 0 col = 0 := rfl

theorem maxRowAt_succ (g : Grid) (n col : Nat) :
    maxRowAt g (n + 1) col =
      if (gridGet g n col).isSome then n else maxRowAt g n col := by
  unfold maxRowAt
  rw [List.range_succ, List.foldl_append]
  rfl

theorem le_maxRowAt (g : Grid) (rows col r : Nat) (hr : r < rows)
    (hsome : (gridGet g r col).isSome = true) : r ≤ maxRowAt g rows col := by
  induction rows with
  | zero => exact absurd hr (Nat.not_lt_zero r)
  | succ n ih =>
      rw [maxRowAt_succ]
      by_cases hs : (gridGet g n col).isSome = true
      · rw [if_pos hs]
        omega
      · rw [if_neg hs]
        have hne : r ≠ n := fun hrn => hs (hrn ▸ hsome)
        exact ih (by omega)

theorem maxRowAt_isSome (g : Grid) (rows col : Nat)
    (h : 0 < maxRowAt g rows col) :
    (gridGet g (maxRowAt g rows col) col).isSome = true := by
  induction rows with
  | zero => rw [maxRowAt_zero] at h; exact absurd h (by omega)
  | succ n ih =>
      rw [maxRowAt_succ] at h ⊢
      by_cases hs : (gridGet g n col).isSome = true
      · rw [if_pos hs] at h ⊢
        exact hs
      · rw [if_neg hs] at h ⊢
        exact ih h

theorem placeStep_branch_nodup (rows cols : Nat) (acc : Grid × List Nat)
    (cell : Cell) (h : acc.2.Nodup) : (placeStep rows cols acc cell).2.Nodup := by
  unfold placeStep
  by_cases hin : effRow cell < rows ∧ effCol cell < cols
  · rw [if_pos hin]
    by_cases hrow : 0 < effRow cell
    · rw [if_pos hrow]
      by_cases hcm : acc.2.contains (effCol cell) = true
      · rw [if_pos hcm]
        exact h
      · rw [if_neg hcm]
        dsimp only
        rw [List.nodup_append]
        refine ⟨h, List.nodup_singleton _, ?_⟩
        intro a ha hb
        rw [List.mem_singleton] at hb
        subst hb
        exact hcm (List.elem_iff.mpr ha)
    · rw [if_neg hrow]
      exact h
  · rw [if_neg hin]
    exact h

theorem foldPlace_branch_nodup (rows cols : Nat) (cells : List Cell) :
    ∀ acc : Grid × List Nat, acc.2.Nodup →
      (cells.foldl (placeStep rows cols) acc).2.Nodup := by
  induction cells with
  | nil => intro acc h; exact h
  | cons cell cells ih =>
      intro acc h
      rw [List.foldl_cons]
      exact ih _ (placeStep_branch_nodup rows cols acc cell h)

theorem rungBranchCols_nodup (rung : Rung) : (rungBranchCols rung).Nodup := by
  unfold rungBranchCols placeCells
  exact foldPlace_branch_nodup _ _ _ _ List.nodup_nil

/-- The first components of the connector list are the branch columns whose
`maxRow` is positive. -/
theorem rungConnectors_map_fst (g : Grid) (bc : List Nat) (rows : Nat) :
    (rungConnectors g bc rows).map Prod.fst =
      bc.filter (fun col => decide (0 < maxRowAt g rows col)) := by
  induction bc with
  | nil => rfl
  | cons col bc ih =>
      unfold rungConnectors at ih ⊢
      rw [List.filterMap_cons, List.filter_cons]
      by_cases hmx : 0 < maxRowAt g rows col
      · rw [if_pos hmx,
          if_pos (show decide (0 < maxRowAt g rows col) = true by simpa using hmx),
          List.map_cons, ih]
      · rw [if_neg hmx,
          if_neg (show ¬decide (0 < maxRowAt g rows col) = true by simpa using hmx),
          ih]

theorem mem_rungConnectors (g : Grid) (bc : List Nat) (rows : Nat)
    (t : Nat × Nat × Nat) :
    t ∈ rungConnectors g bc rows ↔
      t.1 ∈ bc ∧ 0 < maxRowAt g rows t.1 ∧
        t = (t.1, 0, maxRowAt g rows t.1) := by
  unfold rungConnectors
  rw [List.mem_filterMap]
  constructor
  · rintro ⟨col, hcol, hf⟩
    by_cases hmx : 0 < maxRowAt g rows col
    · rw [if_pos hmx] at hf
      cases hf
      exact ⟨hcol, hmx, rfl⟩
    · rw [if_neg hmx] at hf
      cases hf
  · rintro ⟨hmem, hmx, ht⟩
    refine ⟨t.1, hmem, ?_⟩
    rw [if_pos hmx, ← ht]

/-- C1: a vertical branch connector is emitted at column `c` exactly when
some in-bounds placed cell at column `c` has positive row and the maximum row
index holding a placed cell at column `c` is positive; each emitted connector
spans rows `[0, maxRow]`, at most one connector is emitted per column, and
`maxRow` is the largest row index of the grid holding a placed cell at that
column. -/
theorem branch_connector_policy (rung : Rung) (c : Nat) :
    ((∃ s e, (c, s, e) ∈ rungConnectors (rungGrid rung) (rungBranchCols rung)
        (effNat1 rung.rows)) ↔
      ((∃ cell ∈ rung.cells, effRow cell < effNat1 rung.rows ∧
          effCol cell < effNat1 rung.cols ∧ 0 < effRow cell ∧
            effCol cell = c) ∧
        0 < maxRowAt (rungGrid rung) (effNat1 rung.rows) c)) ∧
    (∀ s e, (c, s, e) ∈ rungConnectors (rungGrid rung) (rungBranchCols rung)
        (effNat1 rung.rows) →
      s = 0 ∧ e = maxRowAt (rungGrid rung) (effNat1 rung.rows) c) ∧
    ((rungConnectors (rungGrid rung) (rungBranchCols rung)
        (effNat1 rung.rows)).map Prod.fst).Nodup ∧
    (0 < maxRowAt (rungGrid rung) (effNat1 rung.rows) c →
      (gridGet (rungGrid rung)
          (maxRowAt (rungGrid rung) (effNat1 rung.rows) c) c).isSome = true) ∧
    (∀ r, r < effNat1 rung.rows → (gridGet (rungGrid rung) r c).isSome = true →
      r ≤ maxRowAt (rungGrid rung) (effNat1 rung.rows) c) := by
  refine ⟨?_, ?_, ?_, ?_, ?_⟩
  · constructor
    · rintro ⟨s, e, hmem⟩
      obtain ⟨hbc, hmx, _⟩ := (mem_rungConnectors _ _ _ _).mp hmem
      exact ⟨(rungBranchCols_mem rung c).mp hbc, hmx⟩
    · rintro ⟨hex, hmx⟩
      refine ⟨0, maxRowAt (rungGrid rung) (effNat1 rung.rows) c, ?_⟩
      exact (mem_rungConnectors _ _ _ _).mpr
        ⟨(rungBranchCols_mem rung c).mpr hex, hmx, rfl⟩
  · intro s e hmem
    obtain ⟨_, _, ht⟩ := (mem_rungConnectors _ _ _ _).mp hmem
    exact ⟨congrArg (fun t => t.2.1) ht, congrArg (fun t => t.2.2) ht⟩
  · rw [rungConnectors_map_fst]
    exact (rungBranchCols_nodup rung).filter _
  · exact maxRowAt_isSome _ _ _
  · exact fun r hr hsome => le_maxRowAt _ _ _ _ hr hsome

/-- A rung with a parallel branch: a contact at `(0,0)`, a branch contact at
`(1,0)` and a coil at `(0,1)`. -/
def wRungBranch : Rung :=
  { rungnum := 1,
    cells := [{ row := some 0, col := some 0, symbol := some ("noc") },
              { row := some 1, col := some 0, symbol := some ("noc") },
              { row := some 0, col := some 1, symbol := some ("out") }],
    rows := some 2, cols := some 2 }

/-- C1 witness: the connector policy applied to the concrete branch rung at
column 0 (its hypotheses-bearing components instantiated and discharged). -/
theorem branch_connector_policy_witness :
    (0 : Nat) < maxRowAt (rungGrid wRungBranch) (effNat1 wRungBranch.rows) 0 ∧
      (gridGet (rungGrid wRungBranch)
        (maxRowAt (rungGrid wRungBranch) (effNat1 wRungBranch.rows) 0)
        0).isSome = true :=
  ⟨by decide, (branch_connector_policy wRungBranch 0).2.2.2.1 (by decide)⟩

/-! ## C2: fillers and placeholders on branch rows -/

theorem hasLaterContent_iff (g : Grid) (r c cols : Nat) :
    hasLaterContent g r c cols = true ↔
      ∃ c2, c < c2 ∧ c2 < cols ∧ (gridGet g r c2).isSome = true := by
  unfold hasLaterContent
  rw [List.any_eq_true]
  constructor
  · rintro ⟨cc, hcc, hb⟩
    rw [Bool.and_eq_true, decide_eq_true_iff] at hb
    exact ⟨cc, hb.1, List.mem_range.mp hcc, hb.2⟩
  · rintro ⟨c2, h1, h2, h3⟩
    refine ⟨c2, List.mem_range.mpr h2, ?_⟩
    rw [Bool.and_eq_true, decide_eq_true_iff]
    exact ⟨h1, h3⟩

/-- C2: at an empty in-grid position, the main row always renders a
horizontal filler; a branch row renders a filler exactly when a later column
of that row holds a placed cell or the column is a branch column (some
in-bounds cell at that column has positive row), and otherwise renders the
inert `ladder-empty` placeholder. -/
theorem branch_row_filler_policy (rung : Rung) (r c : Nat)
    (hr : r < effNat1 rung.rows) (hc : c < effNat1 rung.cols)
    (hempty : gridGet (rungGrid rung) r c = none) :
    (r = 0 → kindAt (rungGrid rung) (rungBranchCols rung) (effNat1 rung.cols)
        r c = PosKind.spacerK) ∧
    (0 < r →
      (kindAt (rungGrid rung) (rungBranchCols rung) (effNat1 rung.cols) r c =
          PosKind.spacerK ↔
        ((∃ c2, c < c2 ∧ c2 < effNat1 rung.cols ∧
            (gridGet (rungGrid rung) r c2).isSome = true) ∨
          (∃ cell ∈ rung.cells, effRow cell < effNat1 rung.rows ∧
            effCol cell < effNat1 rung.cols ∧ 0 < effRow cell ∧
              effCol cell = c)))) ∧
    (0 < r →
      kindAt (rungGrid rung) (rungBranchCols rung) (effNat1 rung.cols) r c ≠
          PosKind.spacerK →
        kindAt (rungGrid rung) (rungBranchCols rung) (effNat1 rung.cols) r c =
          PosKind.emptyK) := by
  have hk : kindAt (rungGrid rung) (rungBranchCols rung) (effNat1 rung.cols)
      r c =
      if r = 0 then PosKind.spacerK
      else if hasLaterContent (rungGrid rung) r c (effNat1 rung.cols) ||
          (rungBranchCols rung).contains c then PosKind.spacerK
      else PosKind.emptyK := by
    unfold kindAt
    rw [hempty]
  refine ⟨?_, ?_, ?_⟩
  · intro hr0
    rw [hk, if_pos hr0]
  · intro hr0
    rw [hk, if_neg (by omega)]
    by_cases hcond : (hasLaterContent (rungGrid rung) r c (effNat1 rung.cols) ||
        (rungBranchCols rung).contains c) = true
    · rw [if_pos hcond]
      simp only [true_iff]
      rcases Bool.or_eq_true_iff.mp hcond with hl | hbr
      · exact Or.inl ((hasLaterContent_iff _ _ _ _).mp hl)
      · exact Or.inr ((rungBranchCols_mem rung c).mp (List.elem_iff.mp hbr))
    · rw [if_neg hcond]
      constructor
      · intro hcontra
        cases hcontra
      · rintro (hl | hbr)
        · exact absurd (Bool.or_eq_true_iff.mpr
            (Or.inl ((hasLaterContent_iff _ _ _ _).mpr hl))) hcond
        · exact absurd (Bool.or_eq_true_iff.mpr
            (Or.inr (List.elem_iff.mpr ((rungBranchCols_mem rung c).mpr hbr))))
            hcond
  · intro hr0 hne
    rw [hk, if_neg (by omega)] at hne ⊢
    by_cases hcond : (hasLaterContent (rungGrid rung) r c (effNat1 rung.cols) ||
        (rungBranchCols rung).contains c) = true
    · rw [if_pos hcond] at hne
      exact absurd rfl hne
    · rw [if_neg hcond]

/-- C2 witness: the filler policy applied to the concrete branch rung at the
empty branch-row position `(1, 1)` (no later content, column 1 is not a
branch column, so the placeholder is rendered). -/
theorem branch_row_filler_policy_witness :
    kindAt (rungGrid wRungBranch) (rungBranchCols wRungBranch)
        (effNat1 wRungBranch.cols) 1 1 = PosKind.spacerK ↔
      ((∃ c2, 1 < c2 ∧ c2 < effNat1 wRungBranch.cols ∧
          (gridGet (rungGrid wRungBranch) 1 c2).isSome = true) ∨
        (∃ cell ∈ wRungBranch.cells, effRow cell < effNat1 wRungBranch.rows ∧
          effCol cell < effNat1 wRungBranch.cols ∧ 0 < effRow cell ∧
            effCol cell = 1)) :=
  (branch_row_filler_policy wRungBranch 1 1 (by decide) (by decide)
    (by decide)).2.1 (by decide)

/-! ## C6: out-of-range cells are dropped -/

theorem foldPlace_filter (rows cols : Nat) (cells : List Cell) :
    ∀ acc : Grid × List Nat,
      (cells.filter (fun cell =>
          decide (effRow cell < rows) && decide (effCol cell < cols))).foldl
        (placeStep rows cols) acc = cells.foldl (placeStep rows cols) acc := by
  induction cells with
  | nil => intro acc; rfl
  | cons cell cells ih =>
      intro acc
      rw [List.filter_cons]
      by_cases hp : (decide (effRow cell < rows) &&
          decide (effCol cell < cols)) = true
      · rw [if_pos hp, List.foldl_cons, List.foldl_cons, ih]
      · rw [if_neg hp, List.foldl_cons]
        have hstep : placeStep rows cols acc cell = acc := by
          unfold placeStep
          rw [if_neg]
          rintro ⟨h1, h2⟩
          refine hp ?_
          rw [Bool.and_eq_true, decide_eq_true_iff, decide_eq_true_iff]
          exact ⟨h1, h2⟩
        rw [hstep]
        exact ih acc

theorem effNat1_pos_eq (x : Option Nat) (n : Nat) (hx : x = some n)
    (h0 : 0 < n) : effNat1 x = n := by
  subst hx
  cases n with
  | zero => exact absurd h0 (by omega)
  | succ m => rfl

/-- C6: a cell whose effective `(row, col)` lies at or beyond the declared
`rows`/`cols` bounds of its rung is silently omitted: rendering the rung gives
exactly the same markup as rendering the rung with every such cell removed.
`createRungHtml` is a total function of the rung, so rendering such a rung
cannot fail. -/
theorem out_of_range_cells_dropped (rung : Rung) (rows cols : Nat)
    (hrows : rung.rows = some rows) (h0r : 0 < rows)
    (hcols : rung.cols = some cols) (h0c : 0 < cols) :
    createRungHtml rung =
      createRungHtml { rung with cells := rung.cells.filter (fun cell =>
        decide (effRow cell < rows) && decide (effCol cell < cols)) } := by
  have heffr : effNat1 rung.rows = rows := effNat1_pos_eq _ _ hrows h0r
  have heffc : effNat1 rung.cols = cols := effNat1_pos_eq _ _ hcols h0c
  have hplace :
      placeCells (effNat1 rung.rows) (effNat1 rung.cols)
          (rung.cells.filter (fun cell =>
            decide (effRow cell < rows) && decide (effCol cell < cols))) =
        placeCells (effNat1 rung.rows) (effNat1 rung.cols) rung.cells := by
    rw [heffr, heffc]
    unfold placeCells
    exact foldPlace_filter rows cols rung.cells _
  have hg : rungGrid { rung with cells := rung.cells.filter (fun cell =>
      decide (effRow cell < rows) && decide (effCol cell < cols)) } =
      rungGrid rung := by
    unfold rungGrid
    exact congrArg Prod.fst hplace
  have hb : rungBranchCols { rung with cells := rung.cells.filter (fun cell =>
      decide (effRow cell < rows) && decide (effCol cell < cols)) } =
      rungBranchCols rung := by
    unfold rungBranchCols
    exact congrArg Prod.snd hplace
  unfold createRungHtml
  rw [hg, hb]

/-- A one-by-one rung carrying an in-range contact and a cell declared at
row 5, beyond the declared bounds. -/
def wRungOob : Rung :=
  { rungnum := 2,
    cells := [{ row := some 0, col := some 0, symbol := some ("noc") },
              { row := some 5, col := some 0, symbol := some ("out") }],
    rows := some 1, cols := some 1 }

/-- C6 witness: dropping the out-of-range cell of the concrete rung leaves
the rendered markup unchanged. -/
theorem out_of_range_cells_dropped_witness :
    createRungHtml wRungOob =
      createRungHtml { wRungOob with cells := wRungOob.cells.filter (fun cell =>
        decide (effRow cell < 1) && decide (effCol cell < 1)) } :=
  out_of_range_cells_dropped wRungOob 1 1 rfl (by decide) rfl (by decide)

/-! ## C10: every caller text field is escaped -/

/-- `<`-count of a symbol template (fixed markup, independent of any caller
text). -/
def tmplLt (t : TemplateId) : Nat := countLt (templateSvg t ("MB_ladderoff"))

theorem countLt_getSymbol (name : String) :
    countLt (getSymbol name ("MB_ladderoff")) = tmplLt (resolveSymbol name) :=
  rfl

theorem countLt_cellIdStr (c : Cell) : countLt (cellIdStr c) = 0 := by
  unfold cellIdStr
  simp only [countLt_append, countLt_natStr]
  decide

theorem countLt_cellClassStr (c : Cell) : countLt (cellClassStr c) = 0 := by
  unfold cellClassStr
  split_ifs <;> decide

theorem countLt_addressDisplayStr (c : Cell) :
    countLt (addressDisplayStr c) =
      (if effAddr c != "" then 2
       else if decide (0 < (effAddrs c).length) then 2 else 0) := by
  unfold addressDisplayStr
  split_ifs with h1 h2
  · simp only [countLt_append, countLt_escapeHtml]
    decide
  · simp only [countLt_append, countLt_escapeHtml]
    decide
  · decide

theorem countLt_paramsDisplayStr (c : Cell) :
    countLt (paramsDisplayStr c) =
      (if cellIsBlock c && decide (0 < (effParams c).length) then 2 else 0) := by
  unfold paramsDisplayStr
  split_ifs with h1
  · simp only [countLt_append, countLt_escapeHtml]
    decide
  · decide

theorem countLt_dataAttrsStr (c : Cell) : countLt (dataAttrsStr c) = 0 := by
  unfold dataAttrsStr
  split_ifs with h1
  · simp only [countLt_append, countLt_escapeHtml]
    decide
  · decide

/-- The markup-shape of a cell: which optional fragments are rendered and
which fixed svg template is chosen.  Every caller-supplied text field can
vary arbitrarily within one shape. -/
def cellShape (c : Cell) : Bool × Bool × Bool × Bool × TemplateId :=
  (effAddr c != "", decide (0 < (effAddrs c).length), cellIsBlock c,
    decide (0 < (effParams c).length), resolveSymbol (effSymbol c))

theorem countLt_createCellHtml_shape (c1 c2 : Cell)
    (h : cellShape c1 = cellShape c2) :
    countLt (createCellHtml c1) = countLt (createCellHtml c2) := by
  rw [cellShape, cellShape, Prod.mk.injEq, Prod.mk.injEq, Prod.mk.injEq,
    Prod.mk.injEq] at h
  obtain ⟨h1, h2, h3, h4, h5⟩ := h
  unfold createCellHtml
  simp only [countLt_append, countLt_escapeHtml, countLt_natStr,
    countLt_cellIdStr, countLt_cellClassStr, countLt_dataAttrsStr,
    countLt_addressDisplayStr, countLt_paramsDisplayStr, countLt_getSymbol]
  rw [h1, h2, h3, h4, h5]

theorem countLt_rungHeaderStr (n : Nat) (m1 m2 : String) (hm1 : m1 ≠ (""))
    (hm2 : m2 ≠ ("")) :
    countLt (rungHeaderStr n m1) = countLt (rungHeaderStr n m2) := by
  have e1 : (m1 != ("")) = true := by simpa using hm1
  have e2 : (m2 != ("")) = true := by simpa using hm2
  unfold rungHeaderStr
  rw [if_pos e1, if_pos e2]
  simp only [countLt_append, countLt_escapeHtml, countLt_natStr]

/-- C10: caller-supplied text (cell `addr`, `addrs` entries, `opcode`,
`symbol`, `params`, and the rung `comment`) passes through `escapeHtml`
before appearing in the markup: escaped text contains no `<` at all, so the
number of `<` characters — the only way to introduce an element — in a
rendered cell depends only on the cell shape, not on any text field, and
likewise for the rung header over its comment. -/
theorem text_fields_escaped :
    (∀ s : String, countLt (escapeHtml s) = 0) ∧
    (∀ c1 c2 : Cell, cellShape c1 = cellShape c2 →
      countLt (createCellHtml c1) = countLt (createCellHtml c2)) ∧
    (∀ (n : Nat) (m1 m2 : String), m1 ≠ ("") → m2 ≠ ("") →
      countLt (rungHeaderStr n m1) = countLt (rungHeaderStr n m2)) :=
  ⟨countLt_escapeHtml, countLt_createCellHtml_shape, countLt_rungHeaderStr⟩

/-- A cell whose text fields carry markup-significant characters. -/
def wCellHostile : Cell :=
  { row := some 0, col := some 0, symbol := some ("noc"),
    addr := some ("X<img src=x>"), opcode := some ("<script>alert(1)</script>") }

/-- The same shape with benign text. -/
def wCellBenign : Cell :=
  { row := some 0, col := some 0, symbol := some ("noc"),
    addr := some ("X1"), opcode := some ("and") }

/-- C10 witness: markup-significant characters in the text fields do not
change the number of elements in the output. -/
theorem text_fields_escaped_witness :
    countLt (createCellHtml wCellHostile) = countLt (createCellHtml wCellBenign) ∧
      countLt (rungHeaderStr 1 ("a<b&c>d")) = countLt (rungHeaderStr 1 ("safe")) :=
  ⟨text_fields_escaped.2.1 wCellHostile wCellBenign (by decide),
   text_fields_escaped.2.2 1 ("a<b&c>d") ("safe") (by decide) (by decide)⟩
